import Mathlib

/-
Verification of the conversational relay pipeline in `src/script.py`
(WhatsApp ↔ Gemini chatbot).

Python strings are modelled as lists of characters (`PyStr`); the pure
helpers of the script (`split_message`, the sender sanitization, the history
validation of `load_conversation_history`) are transliterated directly, and
the effectful webhook handler is modelled as a pure function from an
environment (generation credential and API oracle, per-attempt delivery
oracle, persisted store) and a parsed inbound event to an outcome record
that tracks the HTTP response together with the externally visible effects
(generation call attempted, chunks handed to the send capability, history
load, history save, sleeps performed).
-/

/-- Python strings, modelled as their character sequences. -/
abbrev PyStr := List Char

/-- Characters treated as whitespace by Python's `str.split()` / `str.strip()`
(restricted to the ASCII whitespace characters). -/
def pyIsSpace (c : Char) : Bool :=
  c == ' ' || c == '\t' || c == '\n' || c == '\r' || c == '\x0b' || c == '\x0c'

/-- Python's `str.isalnum()` per character (restricted to ASCII letters and
digits, which is what WhatsApp JIDs contain). -/
def pyIsAlnum (c : Char) : Bool := c.isAlphanum

/-- Splitting a string at every character satisfying `p`, keeping empty
pieces: the behaviour of Python's `str.split(sep)` for a one-character
separator when `p` tests for that separator. -/
def splitIf (p : Char → Bool) : PyStr → List PyStr
  | [] => [[]]
  | c :: cs =>
    if p c then [] :: splitIf p cs
    else
      match splitIf p cs with
      | [] => [[c]]
      | w :: ws => (c :: w) :: ws

/-- Python's `text.split(sep)` for a single-character separator. -/
def splitOnChar (sep : Char) (s : PyStr) : List PyStr :=
  splitIf (fun c => c == sep) s

/-- Python's `str.split()` with no argument: split on runs of whitespace and
drop the empty pieces. -/
def pyWords (s : PyStr) : List PyStr :=
  (splitIf pyIsSpace s).filter (fun w => !w.isEmpty)

/-- Python's `sep.join(pieces)` for a one-character separator (used for
`' '.join(current_line)` and `'\n'.join(current_chunk)` in the script). -/
def joinSep (sep : Char) : List PyStr → PyStr
  | [] => []
  | [l] => l
  | l :: l' :: ls => l ++ sep :: joinSep sep (l' :: ls)

/-- Python's `str.strip()`: drop whitespace from both ends. -/
def pyStrip (s : PyStr) : PyStr :=
  ((s.dropWhile pyIsSpace).reverse.dropWhile pyIsSpace).reverse

/-- Python truthiness of an optional string (`None` and `""` are falsy). -/
def pyTruthyStr : Option PyStr → Bool
  | none => false
  | some s => !s.isEmpty

/-- Mirrors `script.py:277`:
`safe_sender_id = "".join(c if c.isalnum() else '_' for c in sender_number)`. -/
def safe_sender_id (sender_number : PyStr) : PyStr :=
  sender_number.map (fun c => if pyIsAlnum c then c else '_')

/-- JSON values, as far as the history file format needs them. -/
inductive JsonValue where
  | null : JsonValue
  | bool (b : Bool) : JsonValue
  | num (n : Int) : JsonValue
  | str (s : PyStr) : JsonValue
  | arr (items : List JsonValue) : JsonValue
  | obj (fields : List (PyStr × JsonValue)) : JsonValue

/-- Outcome of opening and JSON-decoding the per-user history file: the file
may be absent (`FileNotFoundError`), undecodable (`json.JSONDecodeError` or
any other read error), or parse to a JSON value. -/
inductive LoadFile where
  | missing : LoadFile
  | undecodable : LoadFile
  | parsed (v : JsonValue) : LoadFile

/-- Python's `'k' in d` for a JSON object represented as a field list. -/
def hasField (k : PyStr) (fields : List (PyStr × JsonValue)) : Bool :=
  fields.any (fun f => f.1 == k)

/-- Mirrors the per-item validation at `script.py:65`:
`isinstance(item, dict) and 'role' in item and 'parts' in item`. -/
def isValidTurn : JsonValue → Bool
  | JsonValue.obj fields => hasField ("role".data) fields && hasField ("parts".data) fields
  | _ => false

/-- Mirrors `load_conversation_history` (`script.py:58-77`): return the
decoded list when it is a list whose every element is a dict with both a
`role` and a `parts` field, and `[]` in every other case (missing file,
undecodable content, non-list value, or a failing element). Exceptions are
all caught inside the function, so it is total. -/
def load_conversation_history (file : LoadFile) : List JsonValue :=
  match file with
  | LoadFile.parsed (JsonValue.arr history) =>
    if history.all isValidTurn then history else []
  | LoadFile.parsed _ => []
  | LoadFile.missing => []
  | LoadFile.undecodable => []

/-- Mirrors the history entries appended at `script.py:303-304`:
`{'role': r, 'parts': [t]}`. -/
def mkTurn (role text : PyStr) : JsonValue :=
  JsonValue.obj [(("role".data), JsonValue.str role), (("parts".data), JsonValue.arr [JsonValue.str text])]

/-- Mirrors the inner word loop of `split_message` (`script.py:99-114` plus
the trailing flush at `script.py:116-122`), abstracted from the chunk
accumulator: it returns, in order, the lines the loop hands to the chunk
machinery. `cur` is `current_line`, `len` is `current_length`. The chunk
accumulator consumes these lines one by one (see `addLine`), so separating
the two loops is observationally identical to the interleaved original. -/
def wrapLoop (max_chars_per_line : Nat) : List PyStr → List PyStr → Nat → List PyStr
  | [], cur, _ => if cur.isEmpty then [] else [joinSep ' ' cur]
  | w :: ws, cur, len =>
    if len + w.length + 1 ≤ max_chars_per_line then
      wrapLoop max_chars_per_line ws (cur ++ [w]) (len + w.length + 1)
    else
      joinSep ' ' cur :: wrapLoop max_chars_per_line ws [w] w.length

/-- Lines produced for one over-long paragraph: the word loop started with
`current_line = []`, `current_length = 0` (`script.py:98-100`). -/
def wrapWords (max_chars_per_line : Nat) (words : List PyStr) : List PyStr :=
  wrapLoop max_chars_per_line words [] 0

/-- Chunk-accumulator state of `split_message`: `chunks`, `current_chunk`
and `current_line_count` of `script.py:91-93`. -/
structure SplitState where
  chunks : List PyStr
  current_chunk : List PyStr
  current_line_count : Nat

/-- Mirrors the guarded line append of `split_message` (`script.py:107-112`,
identically repeated at `117-122` and `124-129`): flush the current chunk
when it already holds `max_lines` lines, then append the line. -/
def addLine (max_lines : Nat) (st : SplitState) (line : PyStr) : SplitState :=
  if st.current_line_count ≥ max_lines then
    { chunks := st.chunks ++ [joinSep '\n' st.current_chunk]
      current_chunk := [line]
      current_line_count := 1 }
  else
    { chunks := st.chunks
      current_chunk := st.current_chunk ++ [line]
      current_line_count := st.current_line_count + 1 }

/-- Mirrors one iteration of the paragraph loop (`script.py:95-129`): a
paragraph longer than `max_chars_per_line` is word-wrapped and each produced
line is appended through the guarded append; a short paragraph is appended
as a single line. -/
def processParagraph (max_lines max_chars_per_line : Nat) (st : SplitState) (paragraph : PyStr) : SplitState :=
  if paragraph.length > max_chars_per_line then
    (wrapWords max_chars_per_line (pyWords paragraph)).foldl (addLine max_lines) st
  else
    addLine max_lines st paragraph

/-- Mirrors `split_message` (`script.py:87-134`) with its default parameters
`max_lines=3`, `max_chars_per_line=100`. -/
def split_message (text : PyStr) (max_lines : Nat := 3) (max_chars_per_line : Nat := 100) : List PyStr :=
  let paragraphs := splitOnChar '\n' text
  let st := paragraphs.foldl (processParagraph max_lines max_chars_per_line) ⟨[], [], 0⟩
  st.chunks ++ (if st.current_chunk.isEmpty then [] else [joinSep '\n' st.current_chunk])

/-- Number of display lines of a chunk, counted as its newline-separated
segments. -/
def lineCount (chunk : PyStr) : Nat :=
  (splitOnChar '\n' chunk).length

/-- Outcome of the external Gemini call inside `get_gemini_response`
(`script.py:142-173`), abstracting the `google-generativeai` response shapes
the function distinguishes. -/
inductive ApiResult where
  | textOk (t : PyStr) : ApiResult
  | candidatesOk (t : PyStr) : ApiResult
  | candidatesBad : ApiResult
  | emptyResponse : ApiResult
  | apiError : ApiResult

/-- Generation environment: whether `GEMINI_API_KEY` is configured
(`script.py:21`), and the outcome the external service would produce for a
given message and history. -/
structure GenEnv where
  geminiKeyConfigured : Bool
  api : PyStr → List JsonValue → ApiResult

/-- Fixed apology returned when no `GEMINI_API_KEY` is configured
(`script.py:140`). -/
def apologyNoKey : PyStr :=
  "Sorry, I\x27m having trouble connecting to my brain right now (API key issue).".data

/-- Fixed apology for an unusual candidate structure (`script.py:166`). -/
def apologyUnusual : PyStr :=
  "I received an unusual response structure from Gemini. Please try again.".data

/-- Fixed apology for an empty or unexpected response (`script.py:169`). -/
def apologyEmpty : PyStr :=
  "I received an empty or unexpected response from Gemini. Please try again.".data

/-- Fixed apology for a raised API error (`script.py:173`). -/
def apologyTrouble : PyStr :=
  "I\x27m having trouble processing that request with my AI brain. Please try again later.".data

/-- Mirrors `get_gemini_response` (`script.py:136-173`): with no API key the
fixed apology is returned before any call is made; otherwise the external
call's outcome is mapped to stripped text or one of the fixed apologies.
The function never raises (every exception is caught at `script.py:171`). -/
def get_gemini_response (env : GenEnv) (message_text : PyStr) (conversation_history : List JsonValue) : PyStr :=
  if !env.geminiKeyConfigured then apologyNoKey
  else
    match env.api message_text conversation_history with
    | ApiResult.textOk t => pyStrip t
    | ApiResult.candidatesOk t => pyStrip t
    | ApiResult.candidatesBad => apologyUnusual
    | ApiResult.emptyResponse => apologyEmpty
    | ApiResult.apiError => apologyTrouble

/-- Whether `get_gemini_response` attempts an external generation call: it
does exactly when the key is configured (`script.py:138-140` returns first
otherwise). -/
def genApiAttempted (env : GenEnv) : Bool := env.geminiKeyConfigured

/-- How the chunk-delivery `for` loop (`script.py:291-300`) ends. -/
inductive DeliverOutcome where
  | finished : DeliverOutcome
  | broke : DeliverOutcome
  | nameError : DeliverOutcome

/-- Mirrors the chunk-delivery loop (`script.py:291-300`). `send k` is the
success of the `k`-th call to `send_whatsapp_message` (the external
capability). After a successful send the loop body evaluates
`if i < len(message_chunks) - 1:`, and `i` is bound nowhere in `webhook`,
so that expression raises `NameError`; the loop therefore never reaches a
second chunk and never reaches the `time.sleep` call. On a failed send the
body logs and hits `break` before reaching that line. Returns the chunk
texts actually handed to the send capability, in order, and the outcome. -/
def deliverChunks (send : Nat → Bool) : Nat → List PyStr → List PyStr × DeliverOutcome
  | _, [] => ([], DeliverOutcome.finished)
  | k, chunk :: _ =>
    if send k then ([chunk], DeliverOutcome.nameError)
    else ([chunk], DeliverOutcome.broke)

/-- Number of `time.sleep` pauses the delivery loop performs: the statement
at `script.py:300` is unreachable (the guard on `script.py:298` raises
`NameError` first), so no pause ever happens. -/
def deliverSleeps (_send : Nat → Bool) (_chunks : List PyStr) : Nat := 0

/-- Parsed `key` object of the inbound message (`remoteJid`, `fromMe`). -/
structure MessageKey where
  remoteJid : Option PyStr
  fromMe : Bool

/-- Parsed `message` object of the inbound message: presence of a
`conversation` field, and presence of `extendedTextMessage.text`. -/
structure MessageContent where
  conversation : Option PyStr
  extendedText : Option PyStr

/-- Parsed `data['data']['messages']` object. -/
structure MessageInfo where
  key : Option MessageKey
  message : Option MessageContent
  messageStubType : Option PyStr

/-- Parsed top-level webhook JSON document: the `event` field, truthiness of
`data.get('data')`, and the `messages` object when present and truthy. -/
structure WebhookData where
  event : Option PyStr
  hasData : Bool
  messages : Option MessageInfo

/-- Environment the webhook handler runs in: generation, per-attempt
delivery outcomes, and the persisted per-identity history store. -/
structure WebhookEnv where
  gen : GenEnv
  send : Nat → Bool
  store : PyStr → LoadFile

/-- HTTP response plus externally visible effects of one webhook request. -/
structure WebhookOutcome where
  status : PyStr
  message : Option PyStr
  code : Nat
  apiAttempted : Bool
  sendAttempts : List PyStr
  historyLoaded : Bool
  saved : Option (PyStr × List JsonValue)
  sleeps : Nat

/-- Outcome with no effects, for the paths that only log and acknowledge. -/
def ackOutcome (status : PyStr) (msg : Option PyStr) (code : Nat) : WebhookOutcome :=
  { status := status, message := msg, code := code, apiAttempted := false
    sendAttempts := [], historyLoaded := false, saved := none, sleeps := 0 }

/-- Mirrors `message_info.get('key', {}).get('fromMe')` truthiness
(`script.py:248`). -/
def keyFromMe (mi : MessageInfo) : Bool :=
  match mi.key with
  | some k => k.fromMe
  | none => false

/-- Mirrors `message_info.get('key', {}).get('remoteJid')` (`script.py:252`). -/
def keyRemoteJid (mi : MessageInfo) : Option PyStr :=
  match mi.key with
  | some k => k.remoteJid
  | none => none

/-- Message kinds distinguished by the handler (`script.py:255`). -/
inductive MType where
  | text : MType
  | unknown : MType
deriving DecidableEq

/-- Mirrors the content extraction at `script.py:254-265`: `conversation`
first, then `extendedTextMessage.text`; anything else leaves
`incoming_message_text = None` and `message_type = 'unknown'`. -/
def extractContent (msg : Option MessageContent) : Option PyStr × MType :=
  match msg with
  | none => (none, MType.unknown)
  | some mc =>
    match mc.conversation with
    | some t => (some t, MType.text)
    | none =>
      match mc.extendedText with
      | some t => (some t, MType.text)
      | none => (none, MType.unknown)

/-- Mirrors the text-processing branch (`script.py:279-305`): load history,
generate, and when the reply is truthy, segment it, run the delivery loop,
and — only if the loop ended without raising — append the user/model turn
pair and save. A `NameError` out of the loop is caught by the handler's
`except` (`script.py:316-318`), producing the 500 response with no save. -/
def handleText (env : WebhookEnv) (_sender_number safe_sender incoming : PyStr) : WebhookOutcome :=
  let history := load_conversation_history (env.store safe_sender)
  let reply := get_gemini_response env.gen incoming history
  if !reply.isEmpty then
    let chunks := split_message reply
    let att := deliverChunks env.send 0 chunks
    match att.2 with
    | DeliverOutcome.nameError =>
      { status := "error".data, message := some ("Internal server error".data), code := 500
        apiAttempted := genApiAttempted env.gen, sendAttempts := att.1
        historyLoaded := true, saved := none, sleeps := deliverSleeps env.send chunks }
    | _ =>
      let history2 := history ++ [mkTurn ("user".data) incoming, mkTurn ("model".data) reply]
      { status := "success".data, message := none, code := 200
        apiAttempted := genApiAttempted env.gen, sendAttempts := att.1
        historyLoaded := true, saved := some (safe_sender, history2)
        sleeps := deliverSleeps env.send chunks }
  else
    { status := "success".data, message := none, code := 200
      apiAttempted := genApiAttempted env.gen, sendAttempts := []
      historyLoaded := true, saved := none, sleeps := 0 }

/-- Mirrors the body handling one recognized `messages.upsert` event
(`script.py:245-311`): echo suppression, content extraction, system-stub
acknowledgment, sender requirement, identity derivation, then the text
path; every non-text case only logs and falls through to the plain
success acknowledgment at `script.py:315`. -/
def processMessage (env : WebhookEnv) (mi : MessageInfo) : WebhookOutcome :=
  if keyFromMe mi then
    ackOutcome ("success".data) (some ("Self-sent message ignored".data)) 200
  else
    let sender := keyRemoteJid mi
    let ext := extractContent mi.message
    if (mi.messageStubType).isSome then
      ackOutcome ("success".data) (some ("System message processed".data)) 200
    else if !pyTruthyStr sender then
      ackOutcome ("error".data) (some ("Incomplete sender data".data)) 400
    else
      match sender with
      | none => ackOutcome ("error".data) (some ("Incomplete sender data".data)) 400
      | some snd =>
        let safe := safe_sender_id snd
        if ext.2 = MType.text ∧ pyTruthyStr ext.1 then
          handleText env snd safe (ext.1.getD [])
        else
          ackOutcome ("success".data) none 200

/-- Mirrors `webhook` (`script.py:237-318`): events other than a truthy
`messages.upsert` payload are acknowledged with the plain success response
(`script.py:312-315`). -/
def webhook (env : WebhookEnv) (dat : WebhookData) : WebhookOutcome :=
  if dat.event = some ("messages.upsert".data) ∧ dat.hasData = true then
    match dat.messages with
    | some mi => processMessage env mi
    | none => ackOutcome ("success".data) none 200
  else
    ackOutcome ("success".data) none 200

/-- Delivery oracle on which every send succeeds. -/
def sendAlwaysOk : Nat → Bool := fun _ => true

/-- Delivery oracle on which the second send attempt (index 1) fails and
every other attempt succeeds. -/
def sendFailSecond : Nat → Bool := fun k => !(k == 1)

/-- Delivery oracle on which the first send attempt fails. -/
def sendFailFirst : Nat → Bool := fun k => !(k == 0)

/-- Store with no persisted history for any identity. -/
def storeEmpty : PyStr → LoadFile := fun _ => LoadFile.missing

/-- Generation environment with a configured key whose external call always
produces the literal text `t`. -/
def genConstText (t : PyStr) : GenEnv :=
  { geminiKeyConfigured := true, api := fun _ _ => ApiResult.textOk t }

/-- Generation environment with no `GEMINI_API_KEY` configured. -/
def genNoKey : GenEnv :=
  { geminiKeyConfigured := false, api := fun _ _ => ApiResult.textOk ("unused".data) }

/-- Environment: working generation producing a one-chunk reply, working
delivery, empty store. -/
def envOneChunk : WebhookEnv :=
  { gen := genConstText ("Hi there!".data), send := sendAlwaysOk, store := storeEmpty }

/-- Environment: no generation credential, working delivery, empty store. -/
def envNoKey : WebhookEnv :=
  { gen := genNoKey, send := sendAlwaysOk, store := storeEmpty }

/-- Environment: working generation producing a reply that segments into two
chunks, working delivery, empty store. -/
def envTwoChunks : WebhookEnv :=
  { gen := genConstText ("a\nb\nc\nd".data), send := sendAlwaysOk, store := storeEmpty }

/-- Environment: working generation producing a reply that segments into
three chunks, delivery failing on the second attempt, empty store. -/
def envThreeChunksFailSecond : WebhookEnv :=
  { gen := genConstText ("a\nb\nc\nd\ne\nf\ng".data), send := sendFailSecond, store := storeEmpty }

/-- Valid inbound `messages.upsert` event: plain conversation text `Hello`
from `123@s.whatsapp.net`, not self-sent, no stub type. -/
def evHello : WebhookData :=
  { event := some ("messages.upsert".data)
    hasData := true
    messages := some
      { key := some { remoteJid := some ("123@s.whatsapp.net".data), fromMe := false }
        message := some { conversation := some ("Hello".data), extendedText := none }
        messageStubType := none } }

/-- Same event marked as sent by the bot itself (`fromMe: true`). -/
def evSelf : WebhookData :=
  { event := some ("messages.upsert".data)
    hasData := true
    messages := some
      { key := some { remoteJid := some ("123@s.whatsapp.net".data), fromMe := true }
        message := some { conversation := some ("Hello".data), extendedText := none }
        messageStubType := none } }

theorem splitIf_cons_pos (p : Char → Bool) (c : Char) (cs : PyStr) (h : p c = true) :
    splitIf p (c :: cs) = [] :: splitIf p cs := by
  simp [splitIf, h]

theorem splitIf_cons_neg (p : Char → Bool) (c : Char) (cs w : PyStr) (ws : List PyStr)
    (h : p c = false) (hs : splitIf p cs = w :: ws) :
    splitIf p (c :: cs) = (c :: w) :: ws := by
  simp [splitIf, h, hs]

theorem splitIf_ne_nil (p : Char → Bool) (s : PyStr) : splitIf p s ≠ [] := by
  induction s with
  | nil => simp [splitIf]
  | cons c cs ih =>
    cases hpc : p c
    · cases hsp : splitIf p cs with
      | nil => exact absurd hsp ih
      | cons w ws => rw [splitIf_cons_neg p c cs w ws hpc hsp]; simp
    · rw [splitIf_cons_pos p c cs hpc]; simp

theorem splitIf_append_cons (p : Char → Bool) (c : Char) (hc : p c = true) (a b : PyStr) :
    splitIf p (a ++ c :: b) = splitIf p a ++ splitIf p b := by
  induction a with
  | nil => rw [List.nil_append, splitIf_cons_pos p c b hc]; simp [splitIf]
  | cons d a ih =>
    cases hpd : p d
    · cases hsp : splitIf p a with
      | nil => exact absurd hsp (splitIf_ne_nil p a)
      | cons w ws =>
        have h1 : splitIf p (a ++ c :: b) = (w :: ws) ++ splitIf p b := by rw [ih, hsp]
        cases hb : splitIf p b with
        | nil => exact absurd hb (splitIf_ne_nil p b)
        | cons wb wsb =>
          rw [List.cons_append, splitIf_cons_neg p d (a ++ c :: b) w (ws ++ wb :: wsb) hpd
            (by rw [h1, hb]; simp), splitIf_cons_neg p d a w ws hpd hsp]
          simp
    · rw [List.cons_append, splitIf_cons_pos p d (a ++ c :: b) hpd,
        splitIf_cons_pos p d a hpd, ih, List.cons_append]

theorem splitIf_eq_single (p : Char → Bool) (s : PyStr) (h : ∀ c ∈ s, p c = false) :
    splitIf p s = [s] := by
  induction s with
  | nil => simp [splitIf]
  | cons c cs ih =>
    have hc : p c = false := h c (List.mem_cons_self c cs)
    have hcs : splitIf p cs = [cs] := ih (fun d hd => h d (List.mem_cons_of_mem c hd))
    rw [splitIf_cons_neg p c cs cs [] hc hcs]

theorem mem_splitIf_no_sep (p : Char → Bool) (s : PyStr) (piece : PyStr)
    (hp : piece ∈ splitIf p s) : ∀ c ∈ piece, p c = false := by
  induction s generalizing piece with
  | nil =>
    simp [splitIf] at hp
    simp [hp]
  | cons c cs ih =>
    cases hpc : p c
    · cases hsp : splitIf p cs with
      | nil => exact absurd hsp (splitIf_ne_nil p cs)
      | cons w ws =>
        rw [splitIf_cons_neg p c cs w ws hpc hsp] at hp
        rcases List.mem_cons.mp hp with rfl | hmem
        · intro d hd
          rcases List.mem_cons.mp hd with rfl | hdw
          · exact hpc
          · exact ih w (by rw [hsp]; exact List.mem_cons_self w ws) d hdw
        · exact ih piece (by rw [hsp]; exact List.mem_cons_of_mem w hmem)
    · rw [splitIf_cons_pos p c cs hpc] at hp
      rcases List.mem_cons.mp hp with rfl | hmem
      · simp
      · exact ih piece hmem

theorem splitIf_two_stage (p q : Char → Bool) (hpq : ∀ c, p c = true → q c = true)
    (s : PyStr) : splitIf q s = ((splitIf p s).map (splitIf q)).flatten := by
  induction s with
  | nil => simp [splitIf]
  | cons c cs ih =>
    cases hpc : p c
    · cases hsp : splitIf p cs with
      | nil => exact absurd hsp (splitIf_ne_nil p cs)
      | cons wp wsp =>
        cases hsqp : splitIf q wp with
        | nil => exact absurd hsqp (splitIf_ne_nil q wp)
        | cons a as =>
          have ih' : splitIf q cs = a :: (as ++ (List.map (splitIf q) wsp).flatten) := by
            rw [ih, hsp]
            simp [hsqp]
          cases hqc : q c
          · rw [splitIf_cons_neg q c cs a (as ++ (List.map (splitIf q) wsp).flatten) hqc ih',
              splitIf_cons_neg p c cs wp wsp hpc hsp]
            simp only [List.map_cons, List.flatten_cons]
            rw [splitIf_cons_neg q c wp a as hqc hsqp]
            simp
          · rw [splitIf_cons_pos q c cs hqc, splitIf_cons_neg p c cs wp wsp hpc hsp]
            simp only [List.map_cons, List.flatten_cons]
            rw [splitIf_cons_pos q c wp hqc, ih']
            simp [hsqp]
    · have hqc : q c = true := hpq c hpc
      rw [splitIf_cons_pos q c cs hqc, splitIf_cons_pos p c cs hpc]
      simp only [List.map_cons, List.flatten_cons]
      rw [ih]
      simp [splitIf]

theorem pyWords_append_cons (c : Char) (hc : pyIsSpace c = true) (a b : PyStr) :
    pyWords (a ++ c :: b) = pyWords a ++ pyWords b := by
  unfold pyWords
  rw [splitIf_append_cons pyIsSpace c hc a b, List.filter_append]

theorem pyWords_joinSep (sep : Char) (hsep : pyIsSpace sep = true) (ls : List PyStr) :
    pyWords (joinSep sep ls) = (ls.map pyWords).flatten := by
  induction ls with
  | nil => simp [joinSep, pyWords, splitIf]
  | cons l ls ih =>
    cases ls with
    | nil => simp [joinSep]
    | cons l' ls' =>
      rw [joinSep, pyWords_append_cons sep hsep l (joinSep sep (l' :: ls')), ih]
      simp

theorem pyWords_two_stage (p : Char → Bool) (hp : ∀ c, p c = true → pyIsSpace c = true)
    (s : PyStr) : pyWords s = ((splitIf p s).map pyWords).flatten := by
  unfold pyWords
  rw [splitIf_two_stage p pyIsSpace hp s, List.filter_flatten, List.map_map]
  rfl

theorem mem_pyWords_ne_nil (s w : PyStr) (h : w ∈ pyWords s) : w ≠ [] := by
  unfold pyWords at h
  have := List.of_mem_filter h
  simpa using this

theorem mem_pyWords_no_space (s w : PyStr) (h : w ∈ pyWords s) :
    ∀ c ∈ w, pyIsSpace c = false :=
  mem_splitIf_no_sep pyIsSpace s w (List.mem_of_mem_filter h)

theorem pyWords_eq_single (w : PyStr) (h1 : w ≠ []) (h2 : ∀ c ∈ w, pyIsSpace c = false) :
    pyWords w = [w] := by
  unfold pyWords
  rw [splitIf_eq_single pyIsSpace w h2]
  simp [h1]

theorem flatten_map_single (l : List PyStr) : (l.map (fun w => [w])).flatten = l := by
  induction l with
  | nil => simp
  | cons w l ih => simp [ih]

/-- Characters of a word of a string: every word of `pyWords` keeps only
characters the string had, none of them whitespace, and is nonempty. -/
def wordOK (w : PyStr) : Prop := w ≠ [] ∧ ∀ c ∈ w, pyIsSpace c = false

theorem pyWords_wordOK (s w : PyStr) (h : w ∈ pyWords s) : wordOK w :=
  ⟨mem_pyWords_ne_nil s w h, mem_pyWords_no_space s w h⟩

theorem pyWords_joinSep_space (g : List PyStr) (h : ∀ w ∈ g, wordOK w) :
    pyWords (joinSep ' ' g) = g := by
  rw [pyWords_joinSep ' ' (by simp [pyIsSpace]) g]
  have : g.map pyWords = g.map (fun w => [w]) := by
    apply List.map_congr_left
    intro w hw
    exact pyWords_eq_single w (h w hw).1 (h w hw).2
  rw [this, flatten_map_single]

theorem mem_joinSep (sep : Char) (ls : List PyStr) (c : Char) (h : c ∈ joinSep sep ls) :
    c = sep ∨ ∃ l ∈ ls, c ∈ l := by
  induction ls with
  | nil => simp [joinSep] at h
  | cons l ls ih =>
    cases ls with
    | nil =>
      simp only [joinSep] at h
      exact Or.inr ⟨l, List.mem_cons_self l [], h⟩
    | cons l' ls' =>
      rw [joinSep] at h
      rcases List.mem_append.mp h with hl | hr
      · exact Or.inr ⟨l, List.mem_cons_self l _, hl⟩
      · rcases List.mem_cons.mp hr with rfl | hr'
        · exact Or.inl rfl
        · rcases ih hr' with hs | ⟨l'', hl'', hc⟩
          · exact Or.inl hs
          · exact Or.inr ⟨l'', List.mem_cons_of_mem l hl'', hc⟩

theorem wrapLoop_words (mc : Nat) (ws : List PyStr) (cur : List PyStr) (len : Nat)
    (hcur : ∀ w ∈ cur, wordOK w) (hws : ∀ w ∈ ws, wordOK w) :
    ((wrapLoop mc ws cur len).map pyWords).flatten = cur ++ ws := by
  induction ws generalizing cur len with
  | nil =>
    rw [wrapLoop]
    cases hcc : cur.isEmpty
    · have h1 : pyWords (joinSep ' ' cur) = cur := pyWords_joinSep_space cur hcur
      simp [h1]
    · have h2 : cur = [] := List.isEmpty_iff.mp hcc
      simp [h2]
  | cons w ws ih =>
    rw [wrapLoop]
    have hw : wordOK w := hws w (List.mem_cons_self w ws)
    have hws' : ∀ v ∈ ws, wordOK v := fun v hv => hws v (List.mem_cons_of_mem w hv)
    by_cases hfit : len + w.length + 1 ≤ mc
    · rw [if_pos hfit]
      rw [ih (cur ++ [w]) (len + w.length + 1)
        (fun v hv => by
          rcases List.mem_append.mp hv with h | h
          · exact hcur v h
          · rw [List.mem_singleton.mp h]; exact hw) hws']
      simp
    · rw [if_neg hfit]
      simp only [List.map_cons, List.flatten_cons]
      rw [pyWords_joinSep_space cur hcur,
        ih [w] w.length (fun v hv => by rw [List.mem_singleton.mp hv]; exact hw) hws']
      simp

theorem wrapLoop_line_chars (mc : Nat) (ws : List PyStr) (cur : List PyStr) (len : Nat)
    (l : PyStr) (hl : l ∈ wrapLoop mc ws cur len) (c : Char) (hc : c ∈ l) :
    c = ' ' ∨ (∃ w ∈ cur, c ∈ w) ∨ (∃ w ∈ ws, c ∈ w) := by
  induction ws generalizing cur len with
  | nil =>
    rw [wrapLoop] at hl
    cases hcc : cur.isEmpty
    · rw [hcc] at hl
      simp only [Bool.false_eq_true, if_false, List.mem_singleton] at hl
      subst hl
      rcases mem_joinSep ' ' cur c hc with h | ⟨w, hw, hcw⟩
      · exact Or.inl h
      · exact Or.inr (Or.inl ⟨w, hw, hcw⟩)
    · rw [hcc] at hl
      simp at hl
  | cons w ws ih =>
    rw [wrapLoop] at hl
    by_cases hfit : len + w.length + 1 ≤ mc
    · rw [if_pos hfit] at hl
      rcases ih (cur ++ [w]) (len + w.length + 1) hl with h | ⟨v, hv, hcv⟩ | ⟨v, hv, hcv⟩
      · exact Or.inl h
      · rcases List.mem_append.mp hv with h' | h'
        · exact Or.inr (Or.inl ⟨v, h', hcv⟩)
        · have hvw : v = w := List.mem_singleton.mp h'
          subst hvw
          exact Or.inr (Or.inr ⟨v, List.mem_cons_self v ws, hcv⟩)
      · exact Or.inr (Or.inr ⟨v, List.mem_cons_of_mem w hv, hcv⟩)
    · rw [if_neg hfit] at hl
      rcases List.mem_cons.mp hl with rfl | hl'
      · rcases mem_joinSep ' ' cur c hc with h | ⟨v, hv, hcv⟩
        · exact Or.inl h
        · exact Or.inr (Or.inl ⟨v, hv, hcv⟩)
      · rcases ih [w] w.length hl' with h | ⟨v, hv, hcv⟩ | ⟨v, hv, hcv⟩
        · exact Or.inl h
        · have hvw : v = w := List.mem_singleton.mp hv
          subst hvw
          exact Or.inr (Or.inr ⟨v, List.mem_cons_self v ws, hcv⟩)
        · exact Or.inr (Or.inr ⟨v, List.mem_cons_of_mem w hv, hcv⟩)

theorem splitIf_joinSep (p : Char → Bool) (sep : Char) (hsep : p sep = true)
    (ls : List PyStr) (hne : ls ≠ []) (h : ∀ l ∈ ls, ∀ c ∈ l, p c = false) :
    splitIf p (joinSep sep ls) = ls := by
  induction ls with
  | nil => exact absurd rfl hne
  | cons l ls ih =>
    cases ls with
    | nil =>
      rw [joinSep]
      exact splitIf_eq_single p l (h l (List.mem_cons_self l []))
    | cons l' ls' =>
      rw [joinSep, splitIf_append_cons p sep hsep l (joinSep sep (l' :: ls')),
        splitIf_eq_single p l (h l (List.mem_cons_self l _)),
        ih (by simp) (fun v hv => h v (List.mem_cons_of_mem l hv))]
      simp

theorem lineCount_joinSep (ls : List PyStr) (hne : ls ≠ [])
    (h : ∀ l ∈ ls, ∀ c ∈ l, c ≠ '\n') :
    lineCount (joinSep '\n' ls) = ls.length := by
  unfold lineCount splitOnChar
  rw [splitIf_joinSep (fun c => c == '\n') '\n' (by simp) ls hne
    (fun l hl c hc => by simpa using h l hl c hc)]

/-- Lines free of embedded line breaks. -/
def noNl (l : PyStr) : Prop := ∀ c ∈ l, c ≠ '\n'

/-- Invariant of the chunk accumulator: every emitted chunk respects the
line bound, the tracked count equals the real length of the current chunk,
the current chunk is within the bound, and its lines are break-free. -/
def chunksOK (ml : Nat) (st : SplitState) : Prop :=
  (∀ ch ∈ st.chunks, lineCount ch ≤ ml) ∧
  st.current_line_count = st.current_chunk.length ∧
  st.current_chunk.length ≤ ml ∧
  (∀ l ∈ st.current_chunk, noNl l)

theorem addLine_chunksOK (ml : Nat) (st : SplitState) (line : PyStr)
    (hml : 1 ≤ ml) (hst : chunksOK ml st) (hl : noNl line) :
    chunksOK ml (addLine ml st line) := by
  obtain ⟨hch, hcount, hlen, hnl⟩ := hst
  unfold addLine
  by_cases hge : st.current_line_count ≥ ml
  · rw [if_pos hge]
    have hlen' : st.current_chunk.length = ml := le_antisymm hlen (hcount ▸ hge)
    refine ⟨?_, rfl, hml, ?_⟩
    · intro ch hch'
      rcases List.mem_append.mp hch' with h | h
      · exact hch ch h
      · rw [List.mem_singleton.mp h]
        rw [lineCount_joinSep st.current_chunk
          (by intro h0; rw [h0] at hlen'; simp at hlen'; omega)
          (fun l hl' c hc => hnl l hl' c hc)]
        omega
    · intro l hl'
      rw [List.mem_singleton.mp hl']
      exact hl
  · rw [if_neg hge]
    refine ⟨hch, by simp [hcount], ?_, ?_⟩
    · simp only [List.length_append, List.length_singleton]
      omega
    · intro l hl'
      rcases List.mem_append.mp hl' with h | h
      · exact hnl l h
      · rw [List.mem_singleton.mp h]
        exact hl

theorem foldl_addLine_chunksOK (ml : Nat) (lines : List PyStr) (st : SplitState)
    (hml : 1 ≤ ml) (hst : chunksOK ml st) (hlines : ∀ l ∈ lines, noNl l) :
    chunksOK ml (lines.foldl (addLine ml) st) := by
  induction lines generalizing st with
  | nil => simpa
  | cons l lines ih =>
    rw [List.foldl_cons]
    exact ih (addLine ml st l)
      (addLine_chunksOK ml st l hml hst (hlines l (List.mem_cons_self l lines)))
      (fun v hv => hlines v (List.mem_cons_of_mem l hv))

theorem processParagraph_chunksOK (ml mc : Nat) (st : SplitState) (para : PyStr)
    (hml : 1 ≤ ml) (hst : chunksOK ml st) (hpara : noNl para) :
    chunksOK ml (processParagraph ml mc st para) := by
  unfold processParagraph
  by_cases hlong : para.length > mc
  · rw [if_pos hlong]
    apply foldl_addLine_chunksOK ml _ st hml hst
    intro l hl c hc
    rcases wrapLoop_line_chars mc (pyWords para) [] 0 l hl c hc with h | ⟨w, hw, _⟩ | ⟨w, hw, hcw⟩
    · rw [h]; decide
    · simp at hw
    · have hns := mem_pyWords_no_space para w hw c hcw
      intro heq
      rw [heq] at hns
      simp [pyIsSpace] at hns
  · rw [if_neg hlong]
    exact addLine_chunksOK ml st para hml hst hpara

theorem foldl_processParagraph_chunksOK (ml mc : Nat) (paras : List PyStr) (st : SplitState)
    (hml : 1 ≤ ml) (hst : chunksOK ml st) (hparas : ∀ q ∈ paras, noNl q) :
    chunksOK ml (paras.foldl (processParagraph ml mc) st) := by
  induction paras generalizing st with
  | nil => simpa
  | cons q paras ih =>
    rw [List.foldl_cons]
    exact ih (processParagraph ml mc st q)
      (processParagraph_chunksOK ml mc st q hml hst (hparas q (List.mem_cons_self q paras)))
      (fun v hv => hparas v (List.mem_cons_of_mem q hv))

theorem paragraphs_noNl (text : PyStr) : ∀ q ∈ splitOnChar '\n' text, noNl q := by
  intro q hq c hc
  have := mem_splitIf_no_sep (fun c => c == '\n') text q hq c hc
  simpa using this

/-- Whitespace-separated words accumulated so far by the chunk machinery:
words of the emitted chunks followed by words of the pending lines. -/
def wordsOf (st : SplitState) : List PyStr :=
  (st.chunks.map pyWords).flatten ++ (st.current_chunk.map pyWords).flatten

theorem addLine_words (ml : Nat) (st : SplitState) (line : PyStr) :
    wordsOf (addLine ml st line) = wordsOf st ++ pyWords line := by
  unfold addLine wordsOf
  by_cases hge : st.current_line_count ≥ ml
  · rw [if_pos hge]
    simp only [List.map_append, List.map_cons, List.map_nil, List.flatten_append,
      List.flatten_cons, List.flatten_nil, List.append_nil]
    rw [pyWords_joinSep '\n' (by simp [pyIsSpace]) st.current_chunk]
  · rw [if_neg hge]
    simp only [List.map_append, List.map_cons, List.map_nil, List.flatten_append,
      List.flatten_cons, List.flatten_nil, List.append_nil]
    simp [List.append_assoc]

theorem foldl_addLine_words (ml : Nat) (lines : List PyStr) (st : SplitState) :
    wordsOf (lines.foldl (addLine ml) st) = wordsOf st ++ (lines.map pyWords).flatten := by
  induction lines generalizing st with
  | nil => simp
  | cons l lines ih =>
    rw [List.foldl_cons, ih (addLine ml st l), addLine_words]
    simp

theorem processParagraph_words (ml mc : Nat) (st : SplitState) (para : PyStr) :
    wordsOf (processParagraph ml mc st para) = wordsOf st ++ pyWords para := by
  unfold processParagraph
  by_cases hlong : para.length > mc
  · rw [if_pos hlong, foldl_addLine_words]
    unfold wrapWords
    rw [wrapLoop_words mc (pyWords para) [] 0 (by simp)
      (fun w hw => pyWords_wordOK para w hw)]
    simp
  · rw [if_neg hlong, addLine_words]

theorem foldl_processParagraph_words (ml mc : Nat) (paras : List PyStr) (st : SplitState) :
    wordsOf (paras.foldl (processParagraph ml mc) st) =
      wordsOf st ++ (paras.map pyWords).flatten := by
  induction paras generalizing st with
  | nil => simp
  | cons q paras ih =>
    rw [List.foldl_cons, ih (processParagraph ml mc st q), processParagraph_words]
    simp

theorem pyWords_by_paragraph (text : PyStr) :
    pyWords text = ((splitOnChar '\n' text).map pyWords).flatten := by
  unfold splitOnChar
  exact pyWords_two_stage (fun c => c == '\n')
    (fun c hc => by
      have : c = '\n' := by simpa using hc
      rw [this]
      simp [pyIsSpace]) text

theorem split_message_eq (text : PyStr) (ml mc : Nat) :
    split_message text ml mc =
      ((splitOnChar '\n' text).foldl (processParagraph ml mc) ⟨[], [], 0⟩).chunks ++
        (if ((splitOnChar '\n' text).foldl (processParagraph ml mc)
              ⟨[], [], 0⟩).current_chunk.isEmpty then []
         else [joinSep '\n' ((splitOnChar '\n' text).foldl (processParagraph ml mc)
           ⟨[], [], 0⟩).current_chunk]) := rfl

/-- Claim C6: for every input string and parameters `max_lines ≥ 1`,
`max_chars_per_line ≥ 1`, every chunk returned by `split_message` contains
at most `max_lines` lines (counted as newline-separated segments of the
chunk). This holds unconditionally — the over-long-single-word exception the
claim allows for affects line width only, never the line count. -/
theorem claim_C6_chunk_line_bound (ml mc : Nat) (text : PyStr) (hml : 1 ≤ ml) :
    ∀ chunk ∈ split_message text ml mc, lineCount chunk ≤ ml := by
  intro chunk hchunk
  rw [split_message_eq] at hchunk
  set st := (splitOnChar '\n' text).foldl (processParagraph ml mc)
    (⟨[], [], 0⟩ : SplitState) with hstdef
  have hOK : chunksOK ml st :=
    foldl_processParagraph_chunksOK ml mc (splitOnChar '\n' text) ⟨[], [], 0⟩ hml
      ⟨by simp, rfl, Nat.zero_le ml, by simp⟩ (paragraphs_noNl text)
  rcases List.mem_append.mp hchunk with h | h
  · exact hOK.1 chunk h
  · by_cases hcc : st.current_chunk.isEmpty
    · rw [if_pos hcc] at h
      simp at h
    · rw [if_neg hcc] at h
      rw [List.mem_singleton.mp h]
      rw [lineCount_joinSep st.current_chunk
        (fun h0 => hcc (by rw [h0]; rfl)) (fun l hl => hOK.2.2.2 l hl)]
      exact hOK.2.2.1

/-- Witness for claim C6 at the concrete input `"a\nb\nc\nd"` with the
default parameters: the first produced chunk is `"a\nb\nc"`, with 3 lines. -/
theorem claim_C6_witness :
    ("a\nb\nc".data) ∈ split_message ("a\nb\nc\nd".data) 3 100 ∧
      lineCount ("a\nb\nc".data) ≤ 3 :=
  ⟨by decide,
    claim_C6_chunk_line_bound 3 100 ("a\nb\nc\nd".data) (by decide)
      ("a\nb\nc".data) (by decide)⟩

/-- Claim C7: for every input string (and any segmenter parameters), the
whitespace-separated words of all chunks produced by `split_message`, in
order, are exactly the whitespace-separated words of the input: no word is
reordered, lost, or split mid-word. -/
theorem claim_C7_word_preservation (ml mc : Nat) (text : PyStr) :
    ((split_message text ml mc).map pyWords).flatten = pyWords text := by
  rw [split_message_eq]
  set st := (splitOnChar '\n' text).foldl (processParagraph ml mc)
    (⟨[], [], 0⟩ : SplitState) with hstdef
  have hw : wordsOf st = (List.map pyWords (splitOnChar '\n' text)).flatten := by
    rw [hstdef, foldl_processParagraph_words]
    simp [wordsOf]
  rw [pyWords_by_paragraph text, ← hw]
  by_cases hcc : st.current_chunk.isEmpty
  · rw [if_pos hcc]
    have hnil : st.current_chunk = [] := List.isEmpty_iff.mp hcc
    simp [wordsOf, hnil]
  · rw [if_neg hcc]
    simp only [List.map_append, List.map_cons, List.map_nil, List.flatten_append,
      List.flatten_cons, List.flatten_nil, List.append_nil]
    rw [pyWords_joinSep '\n' (by simp [pyIsSpace]) st.current_chunk]
    rfl

/-- Claim C5: the user-identity derivation is the character-wise map that
replaces every non-alphanumeric character with `'_'` and keeps alphanumeric
characters; it is deterministic (a function of the raw address alone), and
every output character is alphanumeric or the placeholder. -/
theorem claim_C5_identity_derivation (s : PyStr) :
    safe_sender_id s = s.map (fun c => if pyIsAlnum c then c else '_') ∧
      (∀ t, s = t → safe_sender_id s = safe_sender_id t) ∧
      (∀ c, c ∈ safe_sender_id s → pyIsAlnum c = true ∨ c = '_') := by
  refine ⟨rfl, fun t h => by rw [h], fun c hc => ?_⟩
  unfold safe_sender_id at hc
  rcases List.mem_map.mp hc with ⟨a, _, ha⟩
  by_cases halnum : pyIsAlnum a
  · rw [if_pos halnum] at ha
    rw [← ha]
    exact Or.inl halnum
  · rw [if_neg halnum] at ha
    exact Or.inr ha.symm

/-- Witness for claim C5 at the raw sender address `123@s.whatsapp.net` and
its first output character. -/
theorem claim_C5_witness :
    safe_sender_id ("123@s.whatsapp.net".data) = ("123_s_whatsapp_net".data) ∧
      ('1' ∈ safe_sender_id ("123@s.whatsapp.net".data) ∧
        (pyIsAlnum '1' = true ∨ '1' = '_')) :=
  ⟨by decide,
    by decide,
    (claim_C5_identity_derivation ("123@s.whatsapp.net".data)).2.2 '1' (by decide)⟩

/-- Claim C8: `load_conversation_history` returns the persisted sequence
when the stored record is a list whose every element has both a `role` and
a `parts` field, and the empty sequence in every other case (missing file,
undecodable content, non-list value, or any element failing validation); it
is a total function, so it never raises to its caller. -/
theorem claim_C8_load_validation (file : LoadFile) :
    (∀ items, file = LoadFile.parsed (JsonValue.arr items) →
        items.all isValidTurn = true → load_conversation_history file = items) ∧
      ((∀ items, file = LoadFile.parsed (JsonValue.arr items) →
          items.all isValidTurn = false) →
        load_conversation_history file = []) := by
  constructor
  · intro items hfile hvalid
    rw [hfile]
    simp [load_conversation_history, hvalid]
  · intro hother
    match file with
    | LoadFile.missing => rfl
    | LoadFile.undecodable => rfl
    | LoadFile.parsed JsonValue.null => rfl
    | LoadFile.parsed (JsonValue.bool b) => rfl
    | LoadFile.parsed (JsonValue.num n) => rfl
    | LoadFile.parsed (JsonValue.str s) => rfl
    | LoadFile.parsed (JsonValue.obj fields) => rfl
    | LoadFile.parsed (JsonValue.arr items) =>
      simp [load_conversation_history, hother items rfl]

/-- Witness for claim C8: a stored list of valid turns is returned as-is; a
missing file and a stored list with an element lacking `parts` both load as
empty. -/
theorem claim_C8_witness :
    load_conversation_history
        (LoadFile.parsed (JsonValue.arr [mkTurn ("user".data) ("hi".data)])) =
      [mkTurn ("user".data) ("hi".data)] ∧
      load_conversation_history
        (LoadFile.parsed (JsonValue.arr
          [JsonValue.obj [(("role".data), JsonValue.str ("user".data))]])) = [] :=
  ⟨(claim_C8_load_validation _).1 [mkTurn ("user".data) ("hi".data)] rfl (by decide),
    (claim_C8_load_validation _).2 (fun items h => by
      have : items = [JsonValue.obj [(("role".data), JsonValue.str ("user".data))]] := by
        injection h with h1
        injection h1 with h2
        exact h2.symm
      rw [this]
      decide)⟩

/-- Claim C9: an inbound `messages.upsert` event whose key has `fromMe`
true triggers no generation call, no outbound delivery, and no history read
or write; the handler returns the neutral success acknowledgment and the
persisted state is untouched (`script.py:248-250`). -/
theorem claim_C9_self_sent_no_effects (env : WebhookEnv) (dat : WebhookData)
    (mi : MessageInfo) (hmsg : dat.messages = some mi)
    (hevt : dat.event = some ("messages.upsert".data)) (hdata : dat.hasData = true)
    (hfrom : keyFromMe mi = true) :
    webhook env dat =
      ackOutcome ("success".data) (some ("Self-sent message ignored".data)) 200 ∧
      (webhook env dat).apiAttempted = false ∧
      (webhook env dat).sendAttempts = [] ∧
      (webhook env dat).historyLoaded = false ∧
      (webhook env dat).saved = none := by
  have h1 : webhook env dat =
      ackOutcome ("success".data) (some ("Self-sent message ignored".data)) 200 := by
    unfold webhook
    rw [if_pos ⟨hevt, hdata⟩, hmsg]
    show processMessage env mi = _
    unfold processMessage
    rw [if_pos hfrom]
  exact ⟨h1, by rw [h1]; rfl, by rw [h1]; rfl, by rw [h1]; rfl, by rw [h1]; rfl⟩

/-- Witness for claim C9 at the concrete self-sent event `evSelf`. -/
theorem claim_C9_witness :
    webhook envOneChunk evSelf =
      ackOutcome ("success".data) (some ("Self-sent message ignored".data)) 200 :=
  (claim_C9_self_sent_no_effects envOneChunk evSelf _ rfl rfl rfl rfl).1

/-- Claim C10: in `split_message`, whenever the greedy word packer is at a
fresh empty line (`current_line = []`, `current_length = 0`) and the next
word `w` has `len(w) + 1 > max_chars_per_line`, the empty line is closed
and emitted as the empty string, placing a spurious empty line before `w`.
The second conjunct exhibits this inside a full `split_message` run: a
101-character paragraph whose first word has exactly 100 characters yields
one chunk beginning with an empty line. -/
theorem claim_C10_empty_line_emission (mc : Nat) (w : PyStr) (ws : List PyStr)
    (h : mc < w.length + 1) :
    wrapLoop mc (w :: ws) [] 0 = [] :: wrapLoop mc ws [w] w.length ∧
      split_message (List.replicate 100 'a' ++ (" b".data)) 3 100 =
        ['\n' :: (List.replicate 100 'a' ++ ('\n' :: ['b']))] := by
  constructor
  · rw [wrapLoop, if_neg (by omega)]
    rfl
  · decide

/-- Witness for claim C10: a word of 4 characters against a 3-character
line limit. -/
theorem claim_C10_witness :
    (3 < ("abcd".data).length + 1) ∧
      wrapLoop 3 (("abcd".data) :: []) [] 0 =
        [] :: wrapLoop 3 [] [("abcd".data)] ("abcd".data).length :=
  ⟨by decide, (claim_C10_empty_line_emission 3 ("abcd".data) [] (by decide)).1⟩

/-- Claim C1 (code-bug evidence): the claim says a successfully processed
text exchange (valid event, sender present, text present, all deliveries
succeeding) appends exactly two turns and saves once. The code instead
raises `NameError` right after the first successful chunk delivery — the
loop body at `script.py:298` reads `i`, a name never bound in `webhook` —
so the handler's `except` returns the 500 response and the history append
and save at `script.py:303-305` never run. Evaluated here on the `Hello`
event with working generation and delivery: the outcome is the 500 error
with `saved = none` and only the first chunk handed to the transport. -/
theorem claim_C1_history_append_diverges :
    webhook envOneChunk evHello =
      { status := "error".data, message := some ("Internal server error".data),
        code := 500, apiAttempted := true, sendAttempts := [("Hi there!".data)],
        historyLoaded := true, saved := none, sleeps := 0 } := rfl

/-- Claim C2 (code-bug evidence): with no `GEMINI_API_KEY`, the generator
does return the fixed apology without attempting a call, and the apology is
segmented into a single chunk and handed to the transport — but the claimed
completion of the path fails: after that successful delivery the unbound
`i` at `script.py:298` raises `NameError`, so the exchange is never
appended to history nor persisted, and the handler returns 500. -/
theorem claim_C2_no_credential_diverges :
    get_gemini_response genNoKey ("Hello".data) [] = apologyNoKey ∧
      genApiAttempted genNoKey = false ∧
      split_message apologyNoKey = [apologyNoKey] ∧
      webhook envNoKey evHello =
        { status := "error".data, message := some ("Internal server error".data),
          code := 500, apiAttempted := false, sendAttempts := [apologyNoKey],
          historyLoaded := true, saved := none, sleeps := 0 } :=
  ⟨rfl, rfl, rfl, rfl⟩

/-- Claim C3 (code-bug evidence): the claim says a reply of `n` chunks is
delivered with exactly `n - 1` randomized pauses and the pacing completes
without raising. In the code the pause at `script.py:299-300` is dead: the
guard `if i < len(message_chunks) - 1:` on `script.py:298` raises
`NameError` (unbound `i`) before any `time.sleep` runs. Evaluated on a
2-chunk reply with all deliveries succeeding: zero pauses happen, only the
first chunk is ever sent, and the handler returns 500. -/
theorem claim_C3_pacing_diverges :
    (split_message ("a\nb\nc\nd".data)).length = 2 ∧
      webhook envTwoChunks evHello =
        { status := "error".data, message := some ("Internal server error".data),
          code := 500, apiAttempted := true, sendAttempts := [("a\nb\nc".data)],
          historyLoaded := true, saved := none, sleeps := 0 } :=
  ⟨rfl, rfl⟩

/-- Claim C4 (code-bug evidence): the claim says that when delivery of
chunk `k` fails no later chunk is attempted but the exchange is still
appended and persisted — in particular, with 3 chunks and a failure on
chunk 2, chunk 3 is skipped and history is still saved. In the code that
scenario is unreachable: the first successful delivery raises `NameError`
(unbound `i`, `script.py:298`), so chunk 2 is never even attempted and the
history is NOT saved — the handler returns 500. (Only a failure on the
very first chunk reaches `break` and the subsequent save.) Evaluated on a
3-chunk reply whose second delivery would fail. -/
theorem claim_C4_partial_delivery_diverges :
    (split_message ("a\nb\nc\nd\ne\nf\ng".data)).length = 3 ∧
      webhook envThreeChunksFailSecond evHello =
        { status := "error".data, message := some ("Internal server error".data),
          code := 500, apiAttempted := true, sendAttempts := [("a\nb\nc".data)],
          historyLoaded := true, saved := none, sleeps := 0 } :=
  ⟨rfl, rfl⟩
